import Mathlib

/-!
Verification of the GTN (Generative Teaching Networks) training engine
(`src/virtusagtn/GTN.py`) against its specification.

The embedding models tensors, models, metrics and optimizers abstractly
(they are external collaborators of the engine); the engine's own control
flow, state handling and bookkeeping are translated faithfully from the
source.  Helpers living in the repository's `utils` module, which is not
part of the provided sources, are modelled from the specification and
marked as such in their doc comments.
-/

namespace GTNSpec

/-! ## Chunking of inner-loop step indices -/

/-- Modelled from the spec: `_divide_chunks` from the repository's `utils`
module (not among the provided sources).  Per spec section 8, it splits a
sequence into contiguous, non-overlapping chunks of size `n`, the last chunk
possibly shorter, in order.  This matches the idiomatic Python generator
`for i in range(0, len(l), n): yield l[i:i+n]`; the `n = 0` case (a Python
`ValueError`) is mapped to the empty result and is outside every claim.
`divideChunksGo` carries a fuel argument solely so the recursion is
structural; `divideChunks` instantiates the fuel with the list length, which
is always sufficient (`divideChunksGo_fuel_irrel`). -/
def divideChunksGo : Nat → List α → Nat → List (List α)
  | _, [], _ => []
  | _, _ :: _, 0 => []
  | 0, _ :: _, _ + 1 => []
  | fuel + 1, x :: xs, n + 1 =>
      ((x :: xs).take (n + 1)) :: divideChunksGo fuel ((x :: xs).drop (n + 1)) (n + 1)

def divideChunks (l : List α) (n : Nat) : List (List α) :=
  divideChunksGo l.length l n

theorem divideChunksGo_fuel_irrel (f : Nat) :
    ∀ (g : Nat) (l : List α) (n : Nat), l.length ≤ f → l.length ≤ g →
      divideChunksGo f l n = divideChunksGo g l n := by
  induction f with
  | zero =>
    intro g l n hf _
    have : l = [] := List.eq_nil_of_length_eq_zero (Nat.le_zero.mp hf)
    subst this
    cases g <;> rfl
  | succ f ih =>
    intro g l n hf hg
    match l, n with
    | [], _ => cases g <;> rfl
    | x :: xs, 0 =>
      cases g with
      | zero => simp at hg
      | succ g => rfl
    | x :: xs, m + 1 =>
      cases g with
      | zero => simp at hg
      | succ g =>
        show ((x :: xs).take (m + 1)) :: divideChunksGo f ((x :: xs).drop (m + 1)) (m + 1)
           = ((x :: xs).take (m + 1)) :: divideChunksGo g ((x :: xs).drop (m + 1)) (m + 1)
        have hlen : ((x :: xs).drop (m + 1)).length ≤ f := by
          simp only [List.length_drop, List.length_cons]
          simp only [List.length_cons] at hf
          omega
        have hleng : ((x :: xs).drop (m + 1)).length ≤ g := by
          simp only [List.length_drop, List.length_cons]
          simp only [List.length_cons] at hg
          omega
        rw [ih g ((x :: xs).drop (m + 1)) (m + 1) hlen hleng]

/-- Modelled from the spec: `_cycle` from the repository's `utils` module
(not among the provided sources).  Per spec section 4.4 / 6, a cyclic wrap of
a finite iterable: "when exhausted, iteration restarts from the beginning
transparently".  `cycleGet l i` is the `i`-th element yielded by the cyclic
iterator over `l` (undefined, `none`, for an empty `l`). -/
def cycleGet (l : List α) (i : Nat) : Option α :=
  l[i % l.length]?

theorem divideChunks_nil (n : Nat) : divideChunks ([] : List α) n = [] := rfl

theorem divideChunks_zero (l : List α) : divideChunks l 0 = [] := by
  cases l <;> rfl

theorem divideChunks_cons (l : List α) (n : Nat) (hl : l ≠ []) (hn : n ≠ 0) :
    divideChunks l n = (l.take n) :: divideChunks (l.drop n) n := by
  match l, n with
  | [], _ => exact absurd rfl hl
  | _ :: _, 0 => exact absurd rfl hn
  | x :: xs, m + 1 =>
    show ((x :: xs).take (m + 1))
          :: divideChunksGo xs.length ((x :: xs).drop (m + 1)) (m + 1)
       = ((x :: xs).take (m + 1)) :: divideChunks ((x :: xs).drop (m + 1)) (m + 1)
    have hlen : ((x :: xs).drop (m + 1)).length ≤ xs.length := by
      simp only [List.length_drop, List.length_cons]
      omega
    rw [divideChunks, divideChunksGo_fuel_irrel xs.length _ _ _ hlen (Nat.le_refl _)]

/-- Concatenating the chunks recovers the original list. -/
theorem divideChunks_flatten (l : List α) (n : Nat) (hn : n ≠ 0) :
    (divideChunks l n).flatten = l := by
  by_cases hl : l = []
  · subst hl; simp [divideChunks_nil]
  · rw [divideChunks_cons l n hl hn]
    have hdec : (l.drop n).length < l.length := by
      have hlen : l.length ≠ 0 := fun hz => hl (List.eq_nil_of_length_eq_zero hz)
      simp only [List.length_drop]
      omega
    have ih : (divideChunks (l.drop n) n).flatten = l.drop n :=
      divideChunks_flatten (l.drop n) n hn
    simp [ih]
termination_by l.length

/-- Every chunk is nonempty and no longer than `n`. -/
theorem divideChunks_mem_length (l : List α) (n : Nat) (hn : n ≠ 0) :
    ∀ c ∈ divideChunks l n, c ≠ [] ∧ c.length ≤ n := by
  by_cases hl : l = []
  · subst hl; simp [divideChunks_nil]
  · rw [divideChunks_cons l n hl hn]
    intro c hc
    rcases List.mem_cons.mp hc with hc | hc
    · subst hc
      constructor
      · intro htake
        have : min n l.length = 0 := by
          simpa [List.length_take] using congrArg List.length htake
        have hlen : l.length ≠ 0 := fun hz => hl (List.eq_nil_of_length_eq_zero hz)
        omega
      · simp [List.length_take]
    · have hdec : (l.drop n).length < l.length := by
        have hlen : l.length ≠ 0 := fun hz => hl (List.eq_nil_of_length_eq_zero hz)
        simp only [List.length_drop]
        omega
      exact divideChunks_mem_length (l.drop n) n hn c hc
termination_by l.length

/-- Every chunk other than the last has length exactly `n`. -/
theorem divideChunks_full_length (l : List α) (n : Nat) (hn : n ≠ 0) :
    ∀ i, i + 1 < (divideChunks l n).length → ((divideChunks l n).getD i []).length = n := by
  by_cases hl : l = []
  · subst hl; simp [divideChunks_nil]
  · rw [divideChunks_cons l n hl hn]
    intro i hi
    have hdec : (l.drop n).length < l.length := by
      have hlen : l.length ≠ 0 := fun hz => hl (List.eq_nil_of_length_eq_zero hz)
      simp only [List.length_drop]
      omega
    cases i with
    | zero =>
      have htail : divideChunks (l.drop n) n ≠ [] := by
        intro hnil
        simp [hnil] at hi
      have hdrop : l.drop n ≠ [] := by
        intro hdnil
        rw [hdnil, divideChunks_nil] at htail
        exact htail rfl
      have hnl : n ≤ l.length := by
        by_contra hgt
        push_neg at hgt
        exact hdrop (List.drop_eq_nil_of_le (Nat.le_of_lt hgt))
      simp [List.length_take, Nat.min_eq_left hnl]
    | succ j =>
      have hj : j + 1 < (divideChunks (l.drop n) n).length := by
        simpa using hi
      simpa using divideChunks_full_length (l.drop n) n hn j hj
termination_by l.length

/-- Embedding of line 99 of `GTN.train`:
`self._batches = list(_divide_chunks(np.arange(self.inner_loop_iterations), self.batch_size))`. -/
def trainBatches (innerLoopIterations batchSize : Nat) : List (List Nat) :=
  divideChunks (List.range innerLoopIterations) batchSize

/-- C3: for every `inner_loop_iterations >= 1` and `batch_size >= 1`, the
batches-of-steps computed at the start of `train` partition
`[0, inner_loop_iterations)` into contiguous, non-overlapping, in-order chunks
of size `batch_size` (the last chunk may be shorter), each index appearing
exactly once (the flattening of the chunks is exactly the list
`0, 1, ..., N-1`), and re-chunking the same inputs yields identical chunks. -/
theorem trainBatches_partition (N b : Nat) (hN : 1 ≤ N) (hb : 1 ≤ b) :
    (trainBatches N b).flatten = List.range N ∧
    (∀ k, k < N → (trainBatches N b).flatten.count k = 1) ∧
    (∀ c ∈ trainBatches N b, c ≠ [] ∧ c.length ≤ b) ∧
    (∀ i, i + 1 < (trainBatches N b).length →
        ((trainBatches N b).getD i []).length = b) ∧
    trainBatches N b = trainBatches N b := by
  have hb0 : b ≠ 0 := Nat.one_le_iff_ne_zero.mp hb
  refine ⟨divideChunks_flatten _ _ hb0, ?_, divideChunks_mem_length _ _ hb0,
          divideChunks_full_length _ _ hb0, rfl⟩
  intro k hk
  rw [trainBatches, divideChunks_flatten _ _ hb0]
  simpa using List.count_eq_one_of_mem (List.nodup_range N) (List.mem_range.mpr hk)

/-- Witness for C3 at `inner_loop_iterations = 5`, `batch_size = 2`. -/
theorem trainBatches_partition_witness :
    (trainBatches 5 2).flatten = List.range 5 ∧
    (∀ k, k < 5 → (trainBatches 5 2).flatten.count k = 1) ∧
    (∀ c ∈ trainBatches 5 2, c ≠ [] ∧ c.length ≤ 2) ∧
    (∀ i, i + 1 < (trainBatches 5 2).length →
        ((trainBatches 5 2).getD i []).length = 2) ∧
    trainBatches 5 2 = trainBatches 5 2 :=
  trainBatches_partition 5 2 (by decide) (by decide)

theorem trainBatches_five_two : trainBatches 5 2 = [[0, 1], [2, 3], [4]] := by decide

/-! ## DataGTN: pre-materialized curriculum data -/

/-- The list of the first `k` pulls `next(self.curriculum_loader)` from the
cyclic iterator over `loader` (used by `DataGTN.compile`, lines 248-251). -/
def cyclePulls (loader : List α) (k : Nat) : List α :=
  (List.range k).filterMap (cycleGet loader)

/-- State of a `DataGTN` established by `DataGTN.compile` (lines 230-255). -/
structure DataGTNState (D L : Type) where
  inner_loop_iterations : Nat
  curriculum_data : List D
  curriculum_labels : List L

/-- Embedding of `DataGTN.compile`: sets `inner_loop_iterations` to the
loader's length, pulls that many `(data, label)` pairs from the cyclic
iterator over the loader, and stacks data and labels separately.  A sample is
an opaque tensor of type `D`, a label an opaque tensor of type `L`. -/
def DataGTN.compile (loader : List (D × L)) : DataGTNState D L :=
  let n := loader.length
  let pulled := cyclePulls loader n
  { inner_loop_iterations := n
    curriculum_data := pulled.map Prod.fst
    curriculum_labels := pulled.map Prod.snd }

/-- Embedding of `DataGTN.get_innerloop_data` (lines 257-266):
`return self.curriculum_data[step], self.curriculum_labels[step]`.
Out-of-range indexing (a Python `IndexError`) is `none`. -/
def DataGTN.get_innerloop_data (s : DataGTNState D L) (step : Nat) :
    Option (D × L) :=
  match s.curriculum_data[step]?, s.curriculum_labels[step]? with
  | some d, some lab => some (d, lab)
  | _, _ => none

theorem cyclePulls_le (loader : List α) (k : Nat) (hk : k ≤ loader.length) :
    cyclePulls loader k = loader.take k := by
  induction k with
  | zero => simp [cyclePulls]
  | succ m ih =>
    have hm : m ≤ loader.length := Nat.le_of_succ_le hk
    have hmlt : m < loader.length := hk
    rw [cyclePulls, List.range_succ, List.filterMap_append]
    rw [cyclePulls] at ih
    rw [ih hm]
    have hmod : m % loader.length = m := Nat.mod_eq_of_lt hmlt
    simp only [List.filterMap_cons, List.filterMap_nil, cycleGet, hmod, List.take_succ]
    cases hx : loader[m]? <;> simp [hx]

theorem cyclePulls_full (loader : List α) :
    cyclePulls loader loader.length = loader := by
  rw [cyclePulls_le loader loader.length (Nat.le_refl _), List.take_length]

/-- C4: after `DataGTN.compile` on a curriculum loader of length `N`,
`inner_loop_iterations = N`, `curriculum_data` holds exactly `N`
pre-materialized samples, and for every step with `loader[step] = (d, lab)`,
`get_innerloop_data step` returns exactly that pre-materialized pair; being a
pure function of the compiled state, a repeated call returns the identical
result (no resampling). -/
theorem DataGTN_compile_materializes (loader : List (D × L)) (step : Nat)
    (p : D × L) (hstep : loader[step]? = some p) :
    (DataGTN.compile loader).inner_loop_iterations = loader.length ∧
    (DataGTN.compile loader).curriculum_data.length = loader.length ∧
    DataGTN.get_innerloop_data (DataGTN.compile loader) step = some p ∧
    DataGTN.get_innerloop_data (DataGTN.compile loader) step
      = DataGTN.get_innerloop_data (DataGTN.compile loader) step := by
  have hdata : (DataGTN.compile loader).curriculum_data = loader.map Prod.fst := by
    simp [DataGTN.compile, cyclePulls_full]
  have hlabels : (DataGTN.compile loader).curriculum_labels = loader.map Prod.snd := by
    simp [DataGTN.compile, cyclePulls_full]
  refine ⟨rfl, ?_, ?_, rfl⟩
  · rw [hdata]; simp
  · rw [DataGTN.get_innerloop_data, hdata, hlabels]
    simp [List.getElem?_map, hstep]

/-- Witness for C4: a loader of 4 concrete samples, queried at step 2. -/
theorem DataGTN_compile_materializes_witness :
    (DataGTN.compile [(10, 0), (20, 1), (30, 2), (40, 3)]).inner_loop_iterations
        = (([(10, 0), (20, 1), (30, 2), (40, 3)] : List (Nat × Nat))).length ∧
    (DataGTN.compile [(10, 0), (20, 1), (30, 2), (40, 3)]).curriculum_data.length
        = (([(10, 0), (20, 1), (30, 2), (40, 3)] : List (Nat × Nat))).length ∧
    DataGTN.get_innerloop_data (DataGTN.compile [(10, 0), (20, 1), (30, 2), (40, 3)]) 2
        = some (30, 2) ∧
    DataGTN.get_innerloop_data (DataGTN.compile [(10, 0), (20, 1), (30, 2), (40, 3)]) 2
        = DataGTN.get_innerloop_data (DataGTN.compile [(10, 0), (20, 1), (30, 2), (40, 3)]) 2 :=
  DataGTN_compile_materializes [(10, 0), (20, 1), (30, 2), (40, 3)] 2 (30, 2) (by decide)

/-! ## Teacher variants: CurriculumTeacherGTN and RandomTeacherGTN -/

/-- Integer teacher labels `torch.arange(inner_batch_size) % num_classes`
(lines 295 and 337). -/
def teacherLabels (innerBatchSize numClasses : Nat) : List Nat :=
  (List.range innerBatchSize).map (fun i => i % numClasses)

/-- One-hot encoding `nn.functional.one_hot(labels, num_classes)`
(lines 296 and 338). -/
def oneHot (labels : List Nat) (numClasses : Nat) : List (List Nat) :=
  labels.map (fun lab => (List.range numClasses).map (fun j => if j = lab then 1 else 0))

/-- State of a `CurriculumTeacherGTN` after `compile` (lines 272-296).  The
teacher network is an opaque function of one noise slice and the one-hot
labels; `teacher_noise` has shape `(inner_loop_iterations, inner_batch_size,
*noise_dims)` and is modelled as a list of slices, each slice a list of
per-sample noise rows of the opaque type `Z`. -/
structure CurriculumTeacherState (Z D : Type) where
  teacher : List Z → List (List Nat) → D
  teacher_noise : List (List Z)
  num_classes : Nat
  inner_batch_size : Nat
  inner_loop_iterations : Nat
  teacher_labels : List Nat
  one_hot : List (List Nat)

/-- Embedding of `CurriculumTeacherGTN.compile`: records the teacher and its
noise, reads `inner_batch_size = teacher_noise.shape[1]` and
`inner_loop_iterations = teacher_noise.shape[0]`, and computes the integer
labels and their one-hot encoding once. -/
def CurriculumTeacherGTN.compile (teacher : List Z → List (List Nat) → D)
    (teacher_noise : List (List Z)) (num_classes : Nat) :
    CurriculumTeacherState Z D :=
  let ibs := (teacher_noise.headD []).length
  { teacher := teacher
    teacher_noise := teacher_noise
    num_classes := num_classes
    inner_batch_size := ibs
    inner_loop_iterations := teacher_noise.length
    teacher_labels := teacherLabels ibs num_classes
    one_hot := oneHot (teacherLabels ibs num_classes) num_classes }

/-- Embedding of `CurriculumTeacherGTN.get_innerloop_data` (lines 298-306):
`z_vec = self.teacher_noise[step]; return self.teacher(z_vec, self.one_hot),
self.teacher_labels`.  Out-of-range `step` (a Python `IndexError`) is `none`. -/
def CurriculumTeacherGTN.get_innerloop_data (s : CurriculumTeacherState Z D)
    (step : Nat) : Option (D × List Nat) :=
  match s.teacher_noise[step]? with
  | some z => some (s.teacher z s.one_hot, s.teacher_labels)
  | none => none

/-- State of a `RandomTeacherGTN` after `compile` (lines 312-338). -/
structure RandomTeacherState (Z D : Type) where
  teacher : List Z → List (List Nat) → D
  inner_batch_size : Nat
  inner_loop_iterations : Nat
  noise_size : List Nat
  num_classes : Nat
  teacher_labels : List Nat
  one_hot : List (List Nat)

/-- Embedding of `RandomTeacherGTN.compile`: records the configured sizes and
computes the integer labels and their one-hot encoding once. -/
def RandomTeacherGTN.compile (teacher : List Z → List (List Nat) → D)
    (inner_loop_iterations : Nat) (noise_size : List Nat)
    (inner_batch_size : Nat) (num_classes : Nat) : RandomTeacherState Z D :=
  { teacher := teacher
    inner_batch_size := inner_batch_size
    inner_loop_iterations := inner_loop_iterations
    noise_size := noise_size
    num_classes := num_classes
    teacher_labels := teacherLabels inner_batch_size num_classes
    one_hot := oneHot (teacherLabels inner_batch_size num_classes) num_classes }

/-- Embedding of `RandomTeacherGTN.get_innerloop_data` (lines 340-349):
`z_vec = torch.randn([inner_batch_size] + noise_size); return
self.teacher(z_vec, self.one_hot), self.teacher_labels`.  The fresh standard
normal draw is modelled by passing the freshly sampled noise `z` explicitly;
neither the data path nor the label path reads `step`. -/
def RandomTeacherGTN.get_innerloop_data (s : RandomTeacherState Z D)
    (z : List Z) (step : Nat) : D × List Nat :=
  (s.teacher z s.one_hot, s.teacher_labels)

/-- C5: for both teacher variants, the label component returned by
`get_innerloop_data(step)` equals `arange(inner_batch_size) mod num_classes`
as integer labels (computed once at compile time), and it is identical for
every step index and every call — for the curriculum variant across any two
in-range steps, and for the random variant across any two noise draws and
step indices. -/
theorem teacherVariants_label_invariance
    (teacher : List Z → List (List Nat) → D) (noise : List (List Z)) (nc : Nat)
    (rteacher : List W → List (List Nat) → E) (iters : Nat)
    (nsize : List Nat) (ibs rnc : Nat)
    (stepA stepB : Nat) (pA pB : D × List Nat) (z1 z2 : List W) (st1 st2 : Nat)
    (hA : CurriculumTeacherGTN.get_innerloop_data
            (CurriculumTeacherGTN.compile teacher noise nc) stepA = some pA)
    (hB : CurriculumTeacherGTN.get_innerloop_data
            (CurriculumTeacherGTN.compile teacher noise nc) stepB = some pB) :
    pA.2 = teacherLabels
            (CurriculumTeacherGTN.compile teacher noise nc).inner_batch_size nc ∧
    pA.2 = pB.2 ∧
    (RandomTeacherGTN.get_innerloop_data
        (RandomTeacherGTN.compile rteacher iters nsize ibs rnc) z1 st1).2
      = teacherLabels ibs rnc ∧
    (RandomTeacherGTN.get_innerloop_data
        (RandomTeacherGTN.compile rteacher iters nsize ibs rnc) z1 st1).2
      = (RandomTeacherGTN.get_innerloop_data
          (RandomTeacherGTN.compile rteacher iters nsize ibs rnc) z2 st2).2 := by
  have hlabA : pA.2 = (CurriculumTeacherGTN.compile teacher noise nc).teacher_labels := by
    rw [CurriculumTeacherGTN.get_innerloop_data] at hA
    cases hz : (CurriculumTeacherGTN.compile teacher noise nc).teacher_noise[stepA]? with
    | none => rw [hz] at hA; exact absurd hA (by simp)
    | some z =>
      rw [hz] at hA
      simp only [Option.some.injEq] at hA
      rw [← hA]
  have hlabB : pB.2 = (CurriculumTeacherGTN.compile teacher noise nc).teacher_labels := by
    rw [CurriculumTeacherGTN.get_innerloop_data] at hB
    cases hz : (CurriculumTeacherGTN.compile teacher noise nc).teacher_noise[stepB]? with
    | none => rw [hz] at hB; exact absurd hB (by simp)
    | some z =>
      rw [hz] at hB
      simp only [Option.some.injEq] at hB
      rw [← hB]
  refine ⟨hlabA, by rw [hlabA, hlabB], rfl, rfl⟩

/-- Witness for C5: a concrete curriculum teacher over 2-sample noise slices
with 3 classes, queried at steps 0 and 1, and a concrete random teacher with
`inner_batch_size = 4`, `num_classes = 3`, queried under two noise draws. -/
theorem teacherVariants_label_invariance_witness :
    ((4, [0, 1]) : Nat × List Nat).2 = teacherLabels
        (CurriculumTeacherGTN.compile
          (fun z oh => z.length + oh.length) [[5, 6], [7, 8]] 3).inner_batch_size 3 ∧
    ((4, [0, 1]) : Nat × List Nat).2 = ((4, [0, 1]) : Nat × List Nat).2 ∧
    (RandomTeacherGTN.get_innerloop_data
        (RandomTeacherGTN.compile (fun z oh => z.length * oh.length) 32 [128] 4 3)
        [1, 2, 3, 4] 0).2 = teacherLabels 4 3 ∧
    (RandomTeacherGTN.get_innerloop_data
        (RandomTeacherGTN.compile (fun z oh => z.length * oh.length) 32 [128] 4 3)
        [1, 2, 3, 4] 0).2
      = (RandomTeacherGTN.get_innerloop_data
          (RandomTeacherGTN.compile (fun z oh => z.length * oh.length) 32 [128] 4 3)
          [9, 9, 9, 9] 7).2 :=
  teacherVariants_label_invariance
    (fun z oh => z.length + oh.length) [[5, 6], [7, 8]] 3
    (fun z oh => z.length * oh.length) 32 [128] 4 3
    0 1 (4, [0, 1]) (4, [0, 1]) [1, 2, 3, 4] [9, 9, 9, 9] 0 7
    (by decide) (by decide)

/-! ## train_on_batch (lines 67-78) -/

/-- The fixed configuration of a `GTN` used by `train_on_batch`: the device
move `.to(self.device)` and the loss function, both opaque collaborators. -/
structure GTNConfig (T R : Type) where
  toDevice : T → T
  loss_fn : T → T → R

/-- A metric accumulator, modelled by its state: the ordered list of
`(prediction, label)` pairs it has been updated with since the last reset.
`metric.update(output, labels)` appends one pair. -/
abbrev MetricState (T : Type) : Type := List (T × T)

/-- Embedding of `GTN.train_on_batch` (lines 67-78):
`data, labels = data.to(device), labels.to(device); output = model(data);
metric.update(output, labels); inner_loss = loss_fn(output, labels);
return inner_loss, metric`.  The in-place metric mutation is explicit state
passing. -/
def train_on_batch (cfg : GTNConfig T R) (data labels : T) (model : T → T)
    (metric : MetricState T) : R × MetricState T :=
  let data2 := cfg.toDevice data
  let labels2 := cfg.toDevice labels
  let output := model data2
  let metric2 := metric ++ [(output, labels2)]
  let inner_loss := cfg.loss_fn output labels2
  (inner_loss, metric2)

/-- C6: for every input, `train_on_batch` returns a pair whose first
component is `loss_fn` applied to the model's output on the device-moved
data and the device-moved labels, and whose second component is the metric
accumulator it was given extended by exactly one update with
`(prediction, label)` — the same accumulator state plus a single appended
update, i.e. the same instance mutated once. -/
theorem train_on_batch_spec (cfg : GTNConfig T R) (data labels : T)
    (model : T → T) (metric : MetricState T) :
    (train_on_batch cfg data labels model metric).1
      = cfg.loss_fn (model (cfg.toDevice data)) (cfg.toDevice labels) ∧
    (train_on_batch cfg data labels model metric).2
      = metric ++ [(model (cfg.toDevice data), cfg.toDevice labels)] ∧
    ((train_on_batch cfg data labels model metric).2).length
      = metric.length + 1 := by
  refine ⟨rfl, rfl, ?_⟩
  simp [train_on_batch, MetricState]

/-! ## Error model: base-class sampling and the train epilogue -/

/-- The Python exception kinds relevant to the engine's error claims. -/
inductive PyError where
  | notImplementedError (msg : String)
  | genericException (msg : String)
  | nameError (name : String)
  | zeroDivisionError
deriving DecidableEq

/-- Embedding of the base-class `GTN.get_innerloop_data` (lines 219-226):
`raise Exception("Function needs to be overridden in child class.")`,
for any step argument. -/
def GTN.get_innerloop_data_base (step : Nat) : Except PyError (Unit × Unit) :=
  Except.error (PyError.genericException "Function needs to be overridden in child class.")

/-- Whether a computation raised Python's `NotImplementedError`. -/
def isNotImplementedError : Except PyError α → Bool
  | Except.error (PyError.notImplementedError _) => true
  | _ => false

/-- Counterexample for C8 as stated: invoking the base curriculum-sampling
operation at the concrete step 0 does not raise `NotImplementedError` — the
`raise` statement at line 226 constructs a plain `Exception`. -/
theorem get_innerloop_data_base_not_notimplemented :
    isNotImplementedError (GTN.get_innerloop_data_base 0) = false := rfl

/-- C8 (amended): invoking the base curriculum-sampling operation
(`GTN.get_innerloop_data` on the base class) raises a generic `Exception`
with message "Function needs to be overridden in child class." — not a
`NotImplementedError` — for every step argument. -/
theorem get_innerloop_data_base_raises (step : Nat) :
    GTN.get_innerloop_data_base step
      = Except.error (PyError.genericException
          "Function needs to be overridden in child class.") := rfl

/-- Embedding of the epilogue of `GTN.train` (lines 182-189), run
unconditionally after the learner loop: first
`del _train_loss, _inner_loss, _test_loss, _train_data, _inner_data,
_test_data, _learner, _inner_optim` — `_train_loss` (the first deleted name)
is bound iff at least one batch-of-steps ran, i.e. iff the population,
the epoch count and the batch list are all nonempty, and `del` of an unbound
name raises `NameError` —, then the timing report dividing the elapsed time
by `len(self.learnerlist)`, which raises `ZeroDivisionError` on an empty
population.  Returning `ok` models reaching the `return df` at line 190. -/
def trainEpilogue (numLearners epochs numBatches : Nat) : Except PyError Unit := do
  if ¬ (numLearners ≠ 0 ∧ epochs ≠ 0 ∧ numBatches ≠ 0) then
    throw (PyError.nameError "_train_loss")
  if numLearners = 0 then
    throw PyError.zeroDivisionError
  pure ()

/-- Counterexample for C10 as stated: with an empty population (0 learners,
3 epochs, 2 batches-of-steps configured) the epilogue raises `NameError` at
the unconditional `del` of the never-bound loop locals; execution aborts
there, so the division by `len(learnerlist)` at line 189 is never reached
and no `ZeroDivisionError` is raised. -/
theorem trainEpilogue_empty_population_no_zerodiv :
    trainEpilogue 0 3 2 = Except.error (PyError.nameError "_train_loss") ∧
    trainEpilogue 0 3 2 ≠ Except.error PyError.zeroDivisionError := by
  refine ⟨rfl, fun h => ?_⟩
  rw [show trainEpilogue 0 3 2
        = Except.error (PyError.nameError "_train_loss") from rfl] at h
  simp at h

/-- C10 (amended): if the learner population is empty or `epochs` is 0 (so no
batch-of-steps ever runs), `train` does not return a result table: the
unconditional `del` of loop-local variables that were never bound raises
`NameError`, and execution aborts there — the division of the elapsed time by
`len(learnerlist)` is never reached, so no `ZeroDivisionError` occurs even
for an empty population. -/
theorem trainEpilogue_no_table (L E B : Nat) (h : L = 0 ∨ E = 0) :
    trainEpilogue L E B = Except.error (PyError.nameError "_train_loss") := by
  have hcond : ¬ (L ≠ 0 ∧ E ≠ 0 ∧ B ≠ 0) := by
    rcases h with h | h <;> subst h <;> simp
  rw [trainEpilogue]
  simp only [if_pos hcond]
  rfl

/-- Witness for C10 (amended) at 0 learners, 3 epochs, 2 batches. -/
theorem trainEpilogue_no_table_witness :
    trainEpilogue 0 3 2 = Except.error (PyError.nameError "_train_loss") :=
  trainEpilogue_no_table 0 3 2 (Or.inl rfl)

/-! ## One batch-of-steps of GTN.train (lines 123-144): state sync -/

/-- The state visible to one batch-of-steps of `GTN.train`: the persistent
learner's parameters `learner` and inner-optimizer state `innerOpt`, the
ephemeral functional pair `flearner`/`fopt` created by
`higher.innerloop_ctx`, and the outer-trainable parameters `outerParams`
(curriculum data / teacher weights / noise and override hyperparameters).
`P`, `O` and `Q` are the opaque value types of those three kinds of state. -/
structure BatchState (P O Q : Type) where
  learner : P
  innerOpt : O
  flearner : P
  fopt : O
  outerParams : Q

/-- Opening the `higher.innerloop_ctx` context (line 128): the functional
learner and differentiable optimizer start from the persistent pair. -/
def ctxOpen (s : BatchState P O Q) : BatchState P O Q :=
  { s with flearner := s.learner, fopt := s.innerOpt }

/-- The unrolled inner steps (lines 134-137): for each step index `k` of the
batch, `get_innerloop_data(k)`, `train_on_batch` and `_diffopt.step` update
only the functional pair, through the differentiable step `stepFn`. -/
def innerStepsOp (stepFn : P → O → Nat → P × O) (batch : List Nat)
    (s : BatchState P O Q) : BatchState P O Q :=
  batch.foldl (fun st k =>
    { st with
        flearner := (stepFn st.flearner st.fopt k).1
        fopt := (stepFn st.flearner st.fopt k).2 }) s

/-- The outer loss, backward pass and outer-optimizer step (lines 139-141):
gradient computation plus `outer_optim.step()` mutates only the
outer-trainable parameters, as a function of the functional learner. -/
def outerStepOp (outerUpd : Q → P → Q) (s : BatchState P O Q) :
    BatchState P O Q :=
  { s with outerParams := outerUpd s.outerParams s.flearner }

/-- The explicit state copy-back (lines 143-144):
`_learner.load_state_dict(_flearner.state_dict())` and
`_inner_optim.load_state_dict(_diffopt_state_dict(_diffopt))`. -/
def stateSync (s : BatchState P O Q) : BatchState P O Q :=
  { s with learner := s.flearner, innerOpt := s.fopt }

/-- One batch-of-steps up to, but not including, the state copy-back. -/
def batchBeforeSync (stepFn : P → O → Nat → P × O) (outerUpd : Q → P → Q)
    (batch : List Nat) (s : BatchState P O Q) : BatchState P O Q :=
  outerStepOp outerUpd (innerStepsOp stepFn batch (ctxOpen s))

/-- One full batch-of-steps (lines 123-144). -/
def processBatch (stepFn : P → O → Nat → P × O) (outerUpd : Q → P → Q)
    (batch : List Nat) (s : BatchState P O Q) : BatchState P O Q :=
  stateSync (batchBeforeSync stepFn outerUpd batch s)

theorem innerStepsOp_frame (stepFn : P → O → Nat → P × O) (batch : List Nat) :
    ∀ s : BatchState P O Q,
      (innerStepsOp stepFn batch s).learner = s.learner ∧
      (innerStepsOp stepFn batch s).innerOpt = s.innerOpt ∧
      (innerStepsOp stepFn batch s).outerParams = s.outerParams := by
  induction batch with
  | nil => intro s; exact ⟨rfl, rfl, rfl⟩
  | cons k ks ih =>
    intro s
    have h := ih
      { s with
          flearner := (stepFn s.flearner s.fopt k).1
          fopt := (stepFn s.flearner s.fopt k).2 }
    simpa [innerStepsOp, List.foldl_cons] using h

/-- C2: for every batch-of-steps, immediately after the batch completes the
persistent learner's parameters (and the persistent inner-optimizer state)
equal the functional learner's final parameters (and the functional
optimizer's final state) exactly; and everything the batch does before the
explicit state copy-back — context opening, the unrolled differentiable inner
steps, and the outer backward/step — leaves the persistent learner and
optimizer untouched, so they are mutated only by the copy-back. -/
theorem batch_state_sync (stepFn : P → O → Nat → P × O) (outerUpd : Q → P → Q)
    (batch : List Nat) (s : BatchState P O Q) :
    (processBatch stepFn outerUpd batch s).learner
      = (batchBeforeSync stepFn outerUpd batch s).flearner ∧
    (processBatch stepFn outerUpd batch s).innerOpt
      = (batchBeforeSync stepFn outerUpd batch s).fopt ∧
    (batchBeforeSync stepFn outerUpd batch s).learner = s.learner ∧
    (batchBeforeSync stepFn outerUpd batch s).innerOpt = s.innerOpt := by
  have h := innerStepsOp_frame stepFn batch (ctxOpen s)
  exact ⟨rfl, rfl, h.1, h.2.1⟩

/-! ## Prototype learners are never mutated (lines 117-118) -/

/-- A heap of learner modules; a module reference is an index into the heap.
This distinguishes Python aliasing from `deepcopy`: `deepcopy` allocates a
fresh cell seeded with the referenced value, while in-place mutation
(`load_state_dict`, optimizer steps) writes through a reference. -/
structure ModuleHeap (P : Type) where
  cells : List P

def ModuleHeap.read (h : ModuleHeap P) (r : Nat) : Option P :=
  h.cells[r]?

def ModuleHeap.write (h : ModuleHeap P) (r : Nat) (v : P) : ModuleHeap P :=
  ⟨h.cells.set r v⟩

/-- `copy.deepcopy`: allocate a fresh cell holding a copy of the referenced
value; returns the new heap and the fresh reference.  (A dangling input
reference is returned unchanged; it never arises below.) -/
def ModuleHeap.deepcopy (h : ModuleHeap P) (r : Nat) : ModuleHeap P × Nat :=
  match h.cells[r]? with
  | some v => (⟨h.cells ++ [v]⟩, h.cells.length)
  | none => (h, r)

/-- One learner's training run (lines 117-177 of `GTN.train`):
`_learner = deepcopy(self.learnerlist[it]).to(device)`, then all
epochs/batches mutate `_learner` in place — modelled by one aggregate
transformation `upd` applied through the fresh reference; the prototype cell
is only read. -/
def runLearner (upd : P → P) (h : ModuleHeap P) (r : Nat) : ModuleHeap P :=
  let copied := h.deepcopy r
  match (copied.1).read copied.2 with
  | some v => (copied.1).write copied.2 (upd v)
  | none => copied.1

/-- All learner runs of `GTN.train`, in population order, starting at
population index `it`. -/
def trainRunsFrom (upd : Nat → P → P) : Nat → List Nat → ModuleHeap P → ModuleHeap P
  | _, [], h => h
  | it, r :: rs, h => trainRunsFrom upd (it + 1) rs (runLearner (upd it) h r)

/-- The learner loop `for it in range(len(self.learnerlist))` of `GTN.train`,
acting on the heap; `protos` is the list of references stored in
`self.learnerlist`. -/
def trainRuns (upd : Nat → P → P) (protos : List Nat) (h : ModuleHeap P) :
    ModuleHeap P :=
  trainRunsFrom upd 0 protos h

theorem set_append_length (l1 : List P) (v w : P) :
    (l1 ++ [v]).set l1.length w = l1 ++ [w] := by
  induction l1 with
  | nil => rfl
  | cons x xs ih => simp [List.set, ih]

theorem runLearner_eq_some (upd : P → P) (h : ModuleHeap P) (r : Nat) (v : P)
    (hr : h.cells[r]? = some v) :
    runLearner upd h r = ModuleHeap.mk (h.cells ++ [upd v]) := by
  rw [runLearner, ModuleHeap.deepcopy, hr]
  have hread : (ModuleHeap.mk (h.cells ++ [v])).read h.cells.length = some v := by
    rw [ModuleHeap.read, List.getElem?_append_right (Nat.le_refl _)]
    simp
  simp [hread, ModuleHeap.write, set_append_length]

theorem runLearner_eq_none (upd : P → P) (h : ModuleHeap P) (r : Nat)
    (hr : h.cells[r]? = none) :
    runLearner upd h r = h := by
  rw [runLearner, ModuleHeap.deepcopy, hr]
  simp [ModuleHeap.read, hr]

theorem runLearner_read_lt (upd : P → P) (h : ModuleHeap P) (r : Nat) :
    ∀ i, i < h.cells.length → (runLearner upd h r).read i = h.read i := by
  intro i hi
  cases hr : h.cells[r]? with
  | none => rw [runLearner_eq_none upd h r hr]
  | some v =>
    rw [runLearner_eq_some upd h r v hr, ModuleHeap.read, ModuleHeap.read]
    exact List.getElem?_append_left hi

theorem runLearner_length_le (upd : P → P) (h : ModuleHeap P) (r : Nat) :
    h.cells.length ≤ (runLearner upd h r).cells.length := by
  cases hr : h.cells[r]? with
  | none => rw [runLearner_eq_none upd h r hr]
  | some v =>
    rw [runLearner_eq_some upd h r v hr]
    simp

theorem trainRunsFrom_read_lt (upd : Nat → P → P) :
    ∀ (it : Nat) (rs : List Nat) (h : ModuleHeap P) (i : Nat),
      i < h.cells.length → (trainRunsFrom upd it rs h).read i = h.read i := by
  intro it rs
  induction rs generalizing it with
  | nil => intro h i _; rfl
  | cons r rs ih =>
    intro h i hi
    rw [trainRunsFrom]
    have hle := runLearner_length_le (upd it) h r
    rw [ih (it + 1) (runLearner (upd it) h r) i (Nat.lt_of_lt_of_le hi hle)]
    exact runLearner_read_lt (upd it) h r i hi

/-- C9: the learner loop of `train` works, for each population index, on a
fresh deep copy of the prototype taken at the start of that index's run —
the freshly allocated cell is seeded with the prototype's value and all
in-place training mutation goes through that fresh reference — and the
prototype modules stored in `learnerlist` are never mutated: after the whole
loop, every prototype reference still reads its original value. -/
theorem train_prototypes_unchanged (upd : Nat → P → P) (h : ModuleHeap P)
    (protos : List Nat) (r : Nat) (hr : r ∈ protos)
    (hvalid : ∀ q ∈ protos, q < h.cells.length) :
    (trainRuns upd protos h).read r = h.read r ∧
    (∀ it v, h.read r = some v →
        (runLearner (upd it) h r).read h.cells.length = some (upd it v)) := by
  constructor
  · exact trainRunsFrom_read_lt upd 0 protos h r (hvalid r hr)
  · intro it v hv
    rw [ModuleHeap.read] at hv
    rw [runLearner_eq_some (upd it) h r v hv, ModuleHeap.read]
    rw [List.getElem?_append_right (Nat.le_refl _)]
    simp

/-- Witness for C9: a heap of two prototype modules read back unchanged after
two training runs that mutate their copies. -/
theorem train_prototypes_unchanged_witness :
    (trainRuns (fun it v => v + 100 * (it + 1)) [0, 1]
        (ModuleHeap.mk [10, 20])).read 0 = (ModuleHeap.mk [10, 20]).read 0 ∧
    (∀ it v, (ModuleHeap.mk ([10, 20] : List Nat)).read 0 = some v →
        (runLearner ((fun it v => v + 100 * (it + 1)) it)
            (ModuleHeap.mk [10, 20]) 0).read 2
          = some ((fun it v => v + 100 * (it + 1)) it v)) :=
  train_prototypes_unchanged (fun it v => v + 100 * (it + 1))
    (ModuleHeap.mk [10, 20]) [0, 1] 0 (by decide) (by decide)

/-! ## Gradient reachability through the unrolled inner loop (lines 128-141) -/

/-- The leaf parameters (graph variables) of the autodiff graph built by one
batch-of-steps: the curriculum-provider parameter consumed at inner step `k`
(the slice of `curriculum_data` / teacher weights and noise used by
`get_innerloop_data(k)`), an override hyperparameter leaf by name (the
`nn.Parameter`s in `self._override`, line 213), the initial learner
parameters, and the outer train data. -/
inductive GraphVar where
  | curriculum (k : Nat)
  | overrideHp (name : String)
  | initParams
  | trainData
deriving DecidableEq

/-- The forward computation recorded by the autodiff tape inside
`higher.innerloop_ctx`: `lossAt p d` is the loss of the learner with
parameters `p` on data `d` (`train_on_batch`, line 136/139); `gradAt p d`
the gradient of that loss with respect to `p`; `optUpdate p g os` one
differentiable optimizer step `_diffopt.step` (line 137) producing new
functional parameters from the previous parameters `p`, the current gradient
`g`, and the override hyperparameter leaves named `os` (line 130:
`override={key: [value] ...}`; spec 4.3: the update is "a function of the
previous parameters, current gradient, and the override hyperparameters" and
stays part of the autodiff graph). -/
inductive GraphExpr where
  | var (v : GraphVar)
  | lossAt (params data : GraphExpr)
  | gradAt (params data : GraphExpr)
  | optUpdate (prev grad : GraphExpr) (overrideNames : List String)
deriving DecidableEq

/-- The leaves reachable from a node by walking the recorded graph backwards
— exactly the parameters into which a backward pass started at that node can
deposit gradients. -/
def GraphExpr.leaves : GraphExpr → List GraphVar
  | .var v => [v]
  | .lossAt p d => p.leaves ++ d.leaves
  | .gradAt p d => p.leaves ++ d.leaves
  | .optUpdate p g os => p.leaves ++ g.leaves ++ os.map GraphVar.overrideHp

/-- The unrolled inner loop (lines 134-137): starting from functional
parameters `theta`, for each step `k` of the batch in order, compute the
inner loss on the curriculum pair for step `k` and apply one differentiable
optimizer step carrying the override hyperparameters. -/
def innerUnroll (overrideNames : List String) (batch : List Nat)
    (theta : GraphExpr) : GraphExpr :=
  batch.foldl
    (fun th k =>
      GraphExpr.optUpdate th (GraphExpr.gradAt th (GraphExpr.var (GraphVar.curriculum k)))
        overrideNames)
    theta

/-- The outer loss of line 139: `train_on_batch(_train_data, _train_target,
_flearner, ...)` evaluated on the functional learner produced by all unrolled
steps of the current batch; line 140 backpropagates from this node. -/
def outerLossGraph (overrideNames : List String) (batch : List Nat) : GraphExpr :=
  GraphExpr.lossAt (innerUnroll overrideNames batch (GraphExpr.var GraphVar.initParams))
    (GraphExpr.var GraphVar.trainData)

theorem innerUnroll_leaves_mono (overrideNames : List String) (batch : List Nat) :
    ∀ (th : GraphExpr) (v : GraphVar),
      v ∈ th.leaves → v ∈ (innerUnroll overrideNames batch th).leaves := by
  induction batch with
  | nil => intro th v hv; exact hv
  | cons k ks ih =>
    intro th v hv
    rw [innerUnroll, List.foldl_cons]
    refine ih _ v ?_
    rw [GraphExpr.leaves]
    exact List.mem_append.mpr (Or.inl (List.mem_append.mpr (Or.inl hv)))

theorem innerUnroll_reaches_curriculum (overrideNames : List String)
    (batch : List Nat) (k : Nat) (hk : k ∈ batch) (th : GraphExpr) :
    GraphVar.curriculum k ∈ (innerUnroll overrideNames batch th).leaves := by
  induction batch generalizing th with
  | nil => cases hk
  | cons b bs ih =>
    rw [innerUnroll, List.foldl_cons]
    rcases List.mem_cons.mp hk with hk | hk
    · subst hk
      refine innerUnroll_leaves_mono overrideNames bs _ _ ?_
      simp [GraphExpr.leaves]
    · exact ih hk _

theorem innerUnroll_reaches_override (overrideNames : List String)
    (batch : List Nat) (hbatch : batch ≠ []) (nm : String)
    (hnm : nm ∈ overrideNames) (th : GraphExpr) :
    GraphVar.overrideHp nm ∈ (innerUnroll overrideNames batch th).leaves := by
  match batch with
  | [] => exact absurd rfl hbatch
  | b :: bs =>
    rw [innerUnroll, List.foldl_cons]
    refine innerUnroll_leaves_mono overrideNames bs _ _ ?_
    rw [GraphExpr.leaves]
    exact List.mem_append.mpr (Or.inr (List.mem_map.mpr ⟨nm, hnm, rfl⟩))

/-- C1: after the inner-loop block of a batch-of-steps, a backward pass from
the outer loss reaches (a) the curriculum-provider parameter consumed at
every single one of the unrolled inner steps of that batch — each step's
curriculum leaf enters the graph only through that step's differentiable
update, so reaching it certifies the gradient path through that step — and
(b) every override hyperparameter value, which every unrolled step carries;
hence the outer-optimizer update is a function of those parameters via each
inner step. -/
theorem outerLoss_gradient_reach (overrideNames : List String)
    (batch : List Nat) (k : Nat) (nm : String)
    (hk : k ∈ batch) (hnm : nm ∈ overrideNames) :
    GraphVar.curriculum k ∈ (outerLossGraph overrideNames batch).leaves ∧
    GraphVar.overrideHp nm ∈ (outerLossGraph overrideNames batch).leaves := by
  have hbatch : batch ≠ [] := by
    intro hnil
    subst hnil
    cases hk
  constructor
  · rw [outerLossGraph, GraphExpr.leaves]
    exact List.mem_append.mpr
      (Or.inl (innerUnroll_reaches_curriculum overrideNames batch k hk _))
  · rw [outerLossGraph, GraphExpr.leaves]
    exact List.mem_append.mpr
      (Or.inl (innerUnroll_reaches_override overrideNames batch hbatch nm hnm _))

/-- Witness for C1: the batch `[2, 3]` with overrides `lr` and `momentum`
(the default `override_params` of `compileoptimizer`), at step 3 and
override `momentum`. -/
theorem outerLoss_gradient_reach_witness :
    GraphVar.curriculum 3 ∈ (outerLossGraph ["lr", "momentum"] [2, 3]).leaves ∧
    GraphVar.overrideHp "momentum" ∈ (outerLossGraph ["lr", "momentum"] [2, 3]).leaves :=
  outerLoss_gradient_reach ["lr", "momentum"] [2, 3] 3 "momentum"
    (by decide) (by decide)

/-! ## The result table and checkpoints of GTN.train (lines 112-190) -/

/-- The keys appended to the per-learner history on every batch-of-steps, in
the order of lines 150-162: the metric names of `self.metrics` prefixed with
"Inner", then "InnerLoss", the same names prefixed with "Train", then
"TrainLoss", the same names prefixed with "Test", then "TestLoss" (the three
metric objects are deep copies of `self.metrics`, so they share one key set). -/
def historyKeys (metricKeys : List String) : List String :=
  metricKeys.map (fun k => "Inner" ++ k) ++ ["InnerLoss"]
    ++ metricKeys.map (fun k => "Train" ++ k) ++ ["TrainLoss"]
    ++ metricKeys.map (fun k => "Test" ++ k) ++ ["TestLoss"]

/-- The `defaultdict(list)` `_info` (line 120): maps a key to the list of
values appended so far; a missing key reads as the empty list. -/
def HistoryMap (V : Type) : Type := String → List V

def emptyHistory (V : Type) : HistoryMap V := fun _ => []

/-- One batch-of-steps' metric logging (lines 154-162): append one value to
each history key, in order. -/
def appendBatch (keys : List String) (vals : String → V)
    (info : HistoryMap V) : HistoryMap V :=
  keys.foldl (fun m k => fun s => if s = k then m s ++ [vals k] else m s) info

/-- The history accumulated by one learner's run (lines 120-165): `epochs`
epochs, each iterating over all `numBatches` batches-of-steps, each appending
one value per history key; `vals e b` gives the values recorded after the
`b`-th batch of epoch `e` (rounded metric computes and the three losses,
opaque here). -/
def learnerHistory (epochs numBatches : Nat) (keys : List String)
    (vals : Nat → Nat → String → V) : HistoryMap V :=
  (List.range epochs).foldl
    (fun info e =>
      (List.range numBatches).foldl
        (fun info2 b => appendBatch keys (vals e b) info2) info)
    (emptyHistory V)

/-- One row of the final `pandas` table: the per-key history lists (each
wrapped into a single cell at line 172) and the `Path` column (line 176). -/
structure LearnerRow (V : Type) where
  history : HistoryMap V
  pathCell : String

/-- The observable output of `GTN.train` (lines 112-190): the result table
`df` (one row appended per learner at line 178) and the checkpoint store
(one `torch.save` per learner at line 177, keyed by the path
`f'{self.path}/{it}.pth'`); `checkpointOf i` is learner `i`'s persisted
record `{'model': _learner, 'optimizer': _inner_optim.state_dict()}`. -/
structure TrainOutput (V C : Type) where
  rows : List (LearnerRow V)
  saves : List (String × C)

/-- The learner loop of `GTN.train` as it affects the table and checkpoints:
for each population index `i` in order, accumulate the history over
`epochs * numBatches` batches-of-steps and emit one row and one checkpoint. -/
def trainDriver (numLearners epochs numBatches : Nat) (keys : List String)
    (vals : Nat → Nat → Nat → String → V) (checkpointOf : Nat → C)
    (path : String) : TrainOutput V C :=
  { rows := (List.range numLearners).map (fun i =>
      { history := learnerHistory epochs numBatches keys (vals i)
        pathCell := path ++ "/" ++ toString i ++ ".pth" })
    saves := (List.range numLearners).map (fun i =>
      (path ++ "/" ++ toString i ++ ".pth", checkpointOf i)) }

theorem appendBatch_nil (vals : String → V) (info : HistoryMap V) :
    appendBatch [] vals info = info := rfl

theorem appendBatch_cons (k : String) (ks : List String) (vals : String → V)
    (info : HistoryMap V) :
    appendBatch (k :: ks) vals info
      = appendBatch ks vals
          (fun s => if s = k then info s ++ [vals k] else info s) := rfl

theorem appendBatch_length (keys : List String) (vals : String → V)
    (s : String) :
    ∀ info : HistoryMap V,
      ((appendBatch keys vals info) s).length = (info s).length + keys.count s := by
  induction keys with
  | nil =>
    intro info
    rw [appendBatch_nil]
    simp
  | cons k ks ih =>
    intro info
    rw [appendBatch_cons, ih]
    by_cases hk : s = k
    · subst hk
      simp [List.count_cons]
      omega
    · simp [hk, List.count_cons]

theorem batchLoop_length (numBatches : Nat) (keys : List String)
    (vals : Nat → String → V) (info : HistoryMap V) (s : String) :
    (((List.range numBatches).foldl
        (fun info2 b => appendBatch keys (vals b) info2) info) s).length
      = (info s).length + numBatches * keys.count s := by
  induction numBatches generalizing info with
  | zero => simp
  | succ m ih =>
    rw [List.range_succ, List.foldl_append, List.foldl_cons, List.foldl_nil]
    rw [appendBatch_length, ih]
    ring

theorem learnerHistory_length (epochs numBatches : Nat) (keys : List String)
    (vals : Nat → Nat → String → V) (s : String) :
    ((learnerHistory epochs numBatches keys vals) s).length
      = epochs * (numBatches * keys.count s) := by
  rw [learnerHistory]
  have hgen : ∀ (es : List Nat) (info : HistoryMap V),
      ((es.foldl (fun info e =>
          (List.range numBatches).foldl
            (fun info2 b => appendBatch keys (vals e b) info2) info) info) s).length
        = (info s).length + es.length * (numBatches * keys.count s) := by
    intro es
    induction es with
    | nil => intro info; simp
    | cons e es ih =>
      intro info
      rw [List.foldl_cons, ih, batchLoop_length, List.length_cons]
      ring
  rw [hgen (List.range epochs) (emptyHistory V)]
  simp [emptyHistory]

/-- C7: for a population of `L` learners trained for `E` epochs with `B`
batches-of-steps per epoch, `train` returns a table with exactly `L` rows;
in row `i` (0-based) every history list whose key occurs among the (pairwise
distinct) history keys has length `E * B` — one value appended per
batch-of-steps — and the `Path` column equals `path ++ "/" ++ i ++ ".pth"`,
under which a checkpoint record holding the learner and the inner-optimizer
state has been persisted. -/
theorem trainDriver_table (numLearners epochs numBatches : Nat)
    (keys : List String) (vals : Nat → Nat → Nat → String → V)
    (checkpointOf : Nat → C) (path : String) (i : Nat) (key : String)
    (hi : i < numLearners) (hkey : key ∈ keys) (hnd : keys.Nodup) :
    (trainDriver numLearners epochs numBatches keys vals checkpointOf path).rows.length
      = numLearners ∧
    ((trainDriver numLearners epochs numBatches keys vals checkpointOf path).rows[i]?).map
        (fun row => (row.history key).length) = some (epochs * numBatches) ∧
    ((trainDriver numLearners epochs numBatches keys vals checkpointOf path).rows[i]?).map
        LearnerRow.pathCell = some (path ++ "/" ++ toString i ++ ".pth") ∧
    (path ++ "/" ++ toString i ++ ".pth", checkpointOf i)
      ∈ (trainDriver numLearners epochs numBatches keys vals checkpointOf path).saves := by
  have hrow : (trainDriver numLearners epochs numBatches keys vals checkpointOf path).rows[i]?
      = some { history := learnerHistory epochs numBatches keys (vals i)
               pathCell := path ++ "/" ++ toString i ++ ".pth" } := by
    rw [trainDriver]
    rw [List.getElem?_map]
    rw [List.getElem?_range hi]
    rfl
  have hcount : keys.count key = 1 := List.count_eq_one_of_mem hnd hkey
  refine ⟨?_, ?_, ?_, ?_⟩
  · rw [trainDriver]
    simp
  · rw [hrow]
    show some (((learnerHistory epochs numBatches keys (vals i)) key).length)
       = some (epochs * numBatches)
    rw [learnerHistory_length, hcount, Nat.mul_one]
  · rw [hrow]
    rfl
  · rw [trainDriver]
    exact List.mem_map.mpr ⟨i, List.mem_range.mpr hi, rfl⟩

/-- Witness for C7, spec scenario A: 2 learners, `inner_loop_iterations = 4`,
`batch_size = 2` (so `trainBatches 4 2` gives 2 batches-of-steps per epoch),
1 epoch, one metric named "Acc": row 0's "TrainLoss" history has length
`1 * 2 = 2`, its path cell is "./gtn/0.pth", and a checkpoint was saved
there. -/
theorem trainDriver_table_witness :
    (trainDriver 2 1 (trainBatches 4 2).length (historyKeys ["Acc"])
        (fun _ _ _ _ => (0 : Nat)) (fun i => i) "./gtn").rows.length = 2 ∧
    ((trainDriver 2 1 (trainBatches 4 2).length (historyKeys ["Acc"])
        (fun _ _ _ _ => (0 : Nat)) (fun i => i) "./gtn").rows[0]?).map
        (fun row => (row.history "TrainLoss").length)
      = some (1 * (trainBatches 4 2).length) ∧
    ((trainDriver 2 1 (trainBatches 4 2).length (historyKeys ["Acc"])
        (fun _ _ _ _ => (0 : Nat)) (fun i => i) "./gtn").rows[0]?).map
        LearnerRow.pathCell = some ("./gtn" ++ "/" ++ toString 0 ++ ".pth") ∧
    ("./gtn" ++ "/" ++ toString 0 ++ ".pth", (fun i => i) 0)
      ∈ (trainDriver 2 1 (trainBatches 4 2).length (historyKeys ["Acc"])
          (fun _ _ _ _ => (0 : Nat)) (fun i => i) "./gtn").saves :=
  trainDriver_table 2 1 (trainBatches 4 2).length (historyKeys ["Acc"])
    (fun _ _ _ _ => (0 : Nat)) (fun i => i) "./gtn" 0 "TrainLoss"
    (by decide) (by decide) (by decide)
